import Mathlib

set_option autoImplicit false

/-!
Verification of the Sphinx documentation generator
(`coreapi/help/doc/sphinx/gendoc.py`).

The generator walks an abstract API model (classes, enums, methods,
enumerators, namespaces) and, for each of the two target languages C and
C++, builds page objects (an enums page, one class page per class, and an
index page) and writes them under a per-language subdirectory of the
output directory.

The shallow embedding below mirrors `gendoc.py` definition by definition.
The helper modules `metaname`, `abstractapi` and `metadoc` (name /
language / documentation translators and the abstract API tree) are part
of the repository but are not under the sources given here; following the
specification, their translators are pure functions of the identifier and
the selected language, so an abstract name carries its (pre-computed)
translation for each translator as plain data, and `to_snake_case` is
modelled from the specification's description of the filename derivation.
Python exceptions are modelled with `Except`: `ValueError` raised for an
unsupported language string, and the `AttributeError` produced by
dereferencing `None`.
-/

/-- ASCII model of the Python string method `lower`, used by
`SphinxPage._init_translation_info` and `DocGenerator._get_subdirectory`
to compare language names case-insensitively. -/
def py_lower (s : String) : String := String.mk (s.data.map Char.toLower)

/-- Model of Python `os.path.join` for two components: an absolute second
component wins; otherwise the components are joined with a single `/`
unless the first one is empty or already ends with `/`. -/
def os_path_join (a b : String) : String :=
  if b.data.head? = some '/' then b
  else if a = "" ∨ a.data.getLast? = some '/' then a ++ b
  else a ++ "/" ++ b

/-- Python value returned by the `hasMethods` / `hasClassMethods`
accessors of `ClassPage`: `_has_methods` returns a `bool`
(`len(self.methods) > 0`) while `_has_class_methods` returns the `int`
`len(self.classMethods)`. -/
inductive PyVal where
  | bool (b : Bool)
  | int (n : Nat)
deriving DecidableEq

/-- Python truthiness of a `PyVal`: a `bool` is its own truth value and an
`int` is truthy when non-zero (this is what the pystache template engine
uses to decide whether to render a section). -/
def PyVal.truthy : PyVal → Bool
  | .bool b => b
  | .int n => decide (n ≠ 0)

/-- Whether a `PyVal` is a Python `bool` (as opposed to an `int`). -/
def PyVal.isBool : PyVal → Bool
  | .bool _ => true
  | .int _ => false

/-- Numeric value used by Python `==` on mixed bool/int operands:
`False == 0` and `True == 1` hold in Python. -/
def PyVal.toNat : PyVal → Nat
  | .bool b => if b then 1 else 0
  | .int n => n

/-- Model of the Python `==` comparison between the values in `PyVal`. -/
def PyVal.pyEq (a b : PyVal) : Bool := a.toNat == b.toNat

/-- Tag for the name translator selected by
`SphinxPage._init_translation_info`: `metaname.CTranslator` or
`metaname.CppTranslator`. -/
inductive NameTranslatorKind where
  | cTranslator
  | cppTranslator
deriving DecidableEq

/-- Tag for the language translator selected by
`SphinxPage._init_translation_info`: `abstractapi.CLangTranslator` or
`abstractapi.CppLangTranslator`. -/
inductive LangTranslatorKind where
  | cLangTranslator
  | cppLangTranslator
deriving DecidableEq

/-- Modelled from the spec: an abstract identifier (`metaname` is not
among the given sources). It carries the word lists of its namespace
segments (outermost first, the last segment being the local name), and —
translation being a pure function of the identifier and the selected
language — the translated spelling for each name translator, bare and
fully qualified. -/
structure Name where
  segments : List (List String)
  cName : String
  cFullName : String
  cppName : String
  cppFullName : String
deriving DecidableEq

/-- Dispatch of `name.translate(nameTranslator, recursive=...)` on the
selected translator. -/
def Name.translate (n : Name) (tr : NameTranslatorKind) (recursive : Bool) : String :=
  match tr, recursive with
  | .cTranslator, false => n.cName
  | .cTranslator, true => n.cFullName
  | .cppTranslator, false => n.cppName
  | .cppTranslator, true => n.cppFullName

/-- Modelled from the spec: `to_snake_case` joins the words of the
requested segments with underscores, lowercased; with `fullName=True` all
namespace segments are included, otherwise only the local segment. -/
def snake_join : List String → String
  | [] => ""
  | w :: rest =>
    match rest with
    | [] => py_lower w
    | _ :: _ => py_lower w ++ "_" ++ snake_join rest

/-- Modelled from the spec: `name.to_snake_case(fullName=...)` from
`metaname`, the lowercase/underscore form of the identifier used for
filenames. -/
def Name.to_snake_case (n : Name) (fullName : Bool) : String :=
  snake_join (if fullName then n.segments.flatten else n.segments.getLastD [])

/-- Modelled from the spec: an abstract documentation fragment
(`metadoc` is not among the given sources). `SphinxTranslator` is built
from the selected name translator, so the translated brief is carried as
data per name-translator kind. -/
structure Doc where
  sphinxC : String
  sphinxCpp : String
deriving DecidableEq

/-- Dispatch of `doc.translate(self.docTranslator)` where the Sphinx
documentation translator was built from the selected name translator. -/
def Doc.translate (d : Doc) (tr : NameTranslatorKind) : String :=
  match tr with
  | .cTranslator => d.sphinxC
  | .cppTranslator => d.sphinxCpp

/-- Modelled from the spec: an abstract method; it carries its translated
prototype per language translator and its brief description. -/
structure AMethod where
  prototypeC : String
  prototypeCpp : String
  briefDescription : Doc
deriving DecidableEq

/-- Dispatch of `method.translate_as_prototype(self.langTranslator)`. -/
def AMethod.translate_as_prototype (m : AMethod) (tr : LangTranslatorKind) : String :=
  match tr with
  | .cLangTranslator => m.prototypeC
  | .cppLangTranslator => m.prototypeCpp

/-- Modelled from the spec: an abstract enumerator with its name, brief
description and translated value per language translator. -/
structure Enumerator where
  name : Name
  briefDescription : Doc
  valueC : String
  valueCpp : String
deriving DecidableEq

/-- Dispatch of `enumerator.translate_value(self.langTranslator)`. -/
def Enumerator.translate_value (e : Enumerator) (tr : LangTranslatorKind) : String :=
  match tr with
  | .cLangTranslator => e.valueC
  | .cppLangTranslator => e.valueCpp

/-- Modelled from the spec: an abstract enum with its ordered list of
enumerators (declaration order). -/
structure AEnum where
  name : Name
  briefDescription : Doc
  enumerators : List Enumerator
deriving DecidableEq

/-- Modelled from the spec: one step of the ancestor chain of a class in
the abstract tree; only whether the ancestor is an `abstractapi.Namespace`
(and, if so, its name) matters to `gendoc.py`. -/
inductive AncestorNode where
  | namespaceNode (name : Name)
  | otherNode (name : Name)
deriving DecidableEq

/-- Modelled from the spec: an abstract class with its two method lists
and its chain of ancestors in the abstract tree, nearest first. -/
structure AClass where
  name : Name
  briefDescription : Doc
  instanceMethods : List AMethod
  classMethods : List AMethod
  ancestors : List AncestorNode
deriving DecidableEq

/-- Modelled from the spec:
`_class.find_first_ancestor_by_type(abstractapi.Namespace)` scans the
ancestor chain and returns the first `Namespace` ancestor, or `None`
(here `none`) when there is no such ancestor. -/
def find_first_ancestor_namespace : List AncestorNode → Option Name
  | [] => none
  | .namespaceNode n :: _ => some n
  | .otherNode _ :: rest => find_first_ancestor_namespace rest

/-- Model of `RstTools.make_section`: the text followed by an underline of
the same length, optionally preceded by the same overline, joined with
newlines. -/
def RstTools.make_section (text : String) (c : Char) (overline : Bool) : String :=
  let underline := String.mk (List.replicate text.length c)
  let lines := if overline then [underline, text, underline] else [text, underline]
  String.intercalate "\n" lines

/-- Model of `RstTools.make_chapter`: a section with `*` and an
overline. -/
def RstTools.make_chapter (text : String) : String :=
  RstTools.make_section text '*' true

/-- State of a constructed `SphinxPage` object: the language string, the
three translators selected by `_init_translation_info`, and the page's
filename. -/
structure SphinxPage where
  language : String
  nameTranslator : NameTranslatorKind
  langTranslator : LangTranslatorKind
  docTranslator : NameTranslatorKind
  filename : String
deriving DecidableEq

/-- Model of `SphinxPage._init_translation_info`: case-insensitive
dispatch on the language string, selecting the C translators for `c`, the
C++ translators for `c++`, and raising `ValueError(language)` otherwise.
The documentation translator is the Sphinx translator built from the
selected name translator. -/
def SphinxPage._init_translation_info (language : String) :
    Except String (NameTranslatorKind × LangTranslatorKind) :=
  if py_lower language = "c" then .ok (.cTranslator, .cLangTranslator)
  else if py_lower language = "c++" then .ok (.cppTranslator, .cppLangTranslator)
  else .error language

/-- Model of `SphinxPage.__init__(language, filename)`: stores the
language, runs `_init_translation_info` (propagating its `ValueError`),
and stores the filename. No file is written during construction; writing
happens only in `SphinxPage.write`. -/
def SphinxPage.make (language filename : String) : Except String SphinxPage :=
  match SphinxPage._init_translation_info language with
  | .error e => .error e
  | .ok (nt, lt) => .ok ⟨language, nt, lt, nt, filename⟩

/-- Model of the static method `SphinxPage._classname_to_filename`:
`classname.to_snake_case(fullName=True) + '.rst'`. -/
def SphinxPage._classname_to_filename (classname : Name) : String :=
  classname.to_snake_case true ++ ".rst"

/-- One entry of `IndexPage.tocEntries`, the dict
`{'entryName': ...}` appended by `add_class_entry`. -/
structure TocEntry where
  entryName : String
deriving DecidableEq

/-- State of a constructed `IndexPage`. -/
structure IndexPage extends SphinxPage where
  tocEntries : List TocEntry
deriving DecidableEq

/-- Model of `IndexPage.__init__(language)`: a `SphinxPage` with the fixed
filename `index.rst` and an empty entry list. -/
def IndexPage.make (language : String) : Except String IndexPage :=
  match SphinxPage.make language "index.rst" with
  | .error e => .error e
  | .ok base => .ok ⟨base, []⟩

/-- Model of `IndexPage.add_class_entry`: appends
`{'entryName': SphinxPage._classname_to_filename(_class.name)}`. -/
def IndexPage.add_class_entry (p : IndexPage) (c : AClass) : IndexPage :=
  { p with tocEntries := p.tocEntries ++ [⟨SphinxPage._classname_to_filename c.name⟩] }

/-- One translated enumerator of the enums page. -/
structure TranslatedEnumerator where
  name : String
  briefDesc : String
  value : String
deriving DecidableEq

/-- One translated enum of the enums page. -/
structure TranslatedEnum where
  name : String
  fullName : String
  briefDesc : String
  enumerators : List TranslatedEnumerator
  sectionName : String
deriving DecidableEq

/-- Model of `EnumsPage._translate_enum_values`: the loop appending one
translated enumerator per source enumerator, in iteration order. -/
def EnumsPage._translate_enum_values (nt : NameTranslatorKind) (lt : LangTranslatorKind)
    (enum : AEnum) : List TranslatedEnumerator :=
  List.foldl
    (fun acc enumerator =>
      acc ++ [⟨enumerator.name.translate nt false,
              enumerator.briefDescription.translate nt,
              enumerator.translate_value lt⟩])
    [] enum.enumerators

/-- Model of `EnumsPage._translate_enums`: the loop appending one
translated enum per source enum, in iteration order; the section title is
made from the translated bare name with the default `=` underline. -/
def EnumsPage._translate_enums (nt : NameTranslatorKind) (lt : LangTranslatorKind)
    (enums : List AEnum) : List TranslatedEnum :=
  List.foldl
    (fun acc enum =>
      acc ++ [⟨enum.name.translate nt false,
              enum.name.translate nt true,
              enum.briefDescription.translate nt,
              EnumsPage._translate_enum_values nt lt enum,
              RstTools.make_section (enum.name.translate nt false) '=' false⟩])
    [] enums

/-- State of a constructed `EnumsPage`. -/
structure EnumsPage extends SphinxPage where
  enums : List TranslatedEnum
deriving DecidableEq

/-- Model of `EnumsPage.__init__(language, enums)`: a `SphinxPage` with
the fixed filename `enums.rst` (the language check runs first and its
`ValueError` propagates), then the translation of all enums. -/
def EnumsPage.make (language : String) (enums : List AEnum) : Except String EnumsPage :=
  match SphinxPage.make language "enums.rst" with
  | .error e => .error e
  | .ok base => .ok ⟨base, EnumsPage._translate_enums base.nameTranslator base.langTranslator enums⟩

/-- Python errors that a `ClassPage` construction (and the generation
loop) can raise: `ValueError` from `_init_translation_info` or
`_get_subdirectory`, and the `AttributeError` raised by
`_get_translated_namespace` when `find_first_ancestor_by_type` returned
`None` and its `name` attribute is accessed. -/
inductive PageError where
  | valueError (msg : String)
  | attributeError
deriving DecidableEq

/-- One translated method of a class page. -/
structure TranslatedMethod where
  prototype : String
  brief : String
deriving DecidableEq

/-- Model of `ClassPage._translate_methods`: the loop appending one
translated method per source method, in iteration order. -/
def ClassPage._translate_methods (nt : NameTranslatorKind) (lt : LangTranslatorKind)
    (methods : List AMethod) : List TranslatedMethod :=
  List.foldl
    (fun acc method =>
      acc ++ [⟨method.translate_as_prototype lt, method.briefDescription.translate nt⟩])
    [] methods

/-- Model of `ClassPage._get_translated_namespace`: looks up the first
`Namespace` ancestor and dereferences the result with no `None` check, so
a class without a `Namespace` ancestor raises `AttributeError` here. -/
def ClassPage._get_translated_namespace (nt : NameTranslatorKind) (c : AClass) :
    Except PageError String :=
  match find_first_ancestor_namespace c.ancestors with
  | none => .error .attributeError
  | some nsname => .ok (nsname.translate nt true)

/-- State of a constructed `ClassPage`. The field `namespaceTr` holds the
attribute named `namespace` in the Python source (a Lean keyword). -/
structure ClassPage extends SphinxPage where
  namespaceTr : String
  className : String
  fullClassName : String
  classBrief : String
  methods : List TranslatedMethod
  classMethods : List TranslatedMethod
deriving DecidableEq

/-- Model of `ClassPage.__init__(_class, language)`: the filename is
derived by `_classname_to_filename`, then `SphinxPage.__init__` runs (its
`ValueError` for an unsupported language propagates first), then the
namespace is resolved (possible `AttributeError`), then names, brief and
the two method lists are translated. No file is written during
construction. -/
def ClassPage.make (c : AClass) (language : String) : Except PageError ClassPage :=
  match SphinxPage.make language (SphinxPage._classname_to_filename c.name) with
  | .error e => .error (.valueError e)
  | .ok base =>
    match ClassPage._get_translated_namespace base.nameTranslator c with
    | .error e => .error e
    | .ok ns =>
      .ok ⟨base, ns,
           c.name.translate base.nameTranslator false,
           c.name.translate base.nameTranslator true,
           c.briefDescription.translate base.docTranslator,
           ClassPage._translate_methods base.nameTranslator base.langTranslator c.instanceMethods,
           ClassPage._translate_methods base.nameTranslator base.langTranslator c.classMethods⟩

/-- Model of the accessor behind the `hasMethods` property:
`_has_methods` returns the Python bool `len(self.methods) > 0`. -/
def ClassPage.hasMethods (p : ClassPage) : PyVal :=
  .bool (decide (0 < p.methods.length))

/-- Model of the accessor behind the `hasClassMethods` property:
`_has_class_methods` returns the Python int `len(self.classMethods)`,
not a bool. -/
def ClassPage.hasClassMethods (p : ClassPage) : PyVal :=
  .int p.classMethods.length

/-- The parsed abstract project: the values of `enumsIndex` and
`classesIndex` in their insertion order (Python dicts preserve it). -/
structure AbstractProject where
  enumsIndex : List AEnum
  classesIndex : List AClass
deriving DecidableEq

/-- Module-level state of `gendoc.py` that `DocGenerator.generate`
actually reads: the global `args.outputdir` and the global
`absApiParser`. -/
structure GlobalEnv where
  argsOutputdir : String
  absApiParser : AbstractProject
deriving DecidableEq

/-- State of a `DocGenerator` instance: `__init__` stores the `api`
argument and the fixed language list `['C', 'C++']`. -/
structure DocGenerator where
  api : AbstractProject
  languages : List String
deriving DecidableEq

/-- Model of `DocGenerator.__init__(api)`. -/
def DocGenerator.make (api : AbstractProject) : DocGenerator :=
  ⟨api, ["C", "C++"]⟩

/-- Model of `DocGenerator._get_subdirectory`: case-insensitive mapping
of the language name to the fixed subdirectory `c` or `cpp`, raising
`ValueError` for anything else. -/
def DocGenerator._get_subdirectory (lang : String) : Except String String :=
  let loweredLang := py_lower lang
  if loweredLang = "c" then .ok "c"
  else if loweredLang = "c++" then .ok "cpp"
  else .error ("'" ++ lang ++ "' language not supported")

/-- Content written by `SphinxPage.write`: the pystache rendering is a
pure function of the page object (the template files are fixed), so the
page data itself stands for the rendered bytes. -/
inductive PageData where
  | enumsPage (p : EnumsPage)
  | indexPage (p : IndexPage)
  | classPage (p : ClassPage)
deriving DecidableEq

/-- Filename stored in the page a `PageData` wraps. -/
def PageData.filenameOf : PageData → String
  | .enumsPage p => p.filename
  | .indexPage p => p.filename
  | .classPage p => p.filename

/-- One call of `SphinxPage.write(directory)`: the file
`os.path.join(directory, self.filename)` is opened with mode `w`
(unconditional overwrite) and the rendering is written. -/
structure WriteEvent where
  path : String
  page : PageData
deriving DecidableEq

/-- Model of the per-class loop body of `DocGenerator.generate`: for each
class, a `ClassPage` is built and written, and an entry for the class is
appended to the index page; exceptions abort the whole run. Returns the
writes in order together with the final index page. -/
def DocGenerator.write_class_pages (lang directory : String) (idx : IndexPage) :
    List AClass → Except PageError (List WriteEvent × IndexPage)
  | [] => .ok ([], idx)
  | c :: rest =>
    match ClassPage.make c lang with
    | .error e => .error e
    | .ok page =>
      match DocGenerator.write_class_pages lang directory (idx.add_class_entry c) rest with
      | .error e => .error e
      | .ok (evs, idx2) =>
        .ok (⟨os_path_join directory page.filename, .classPage page⟩ :: evs, idx2)

/-- Model of one iteration of the language loop of
`DocGenerator.generate`: compute the subdirectory under the global
`args.outputdir`, build and write the enums page from the global
`absApiParser.enumsIndex`, build the index page, run the class loop over
the global `absApiParser.classesIndex`, and finally write the index
page. The `os.mkdir` call only ensures the directory exists and is not a
write event. -/
def DocGenerator.generate_for_lang (env : GlobalEnv) (lang : String) :
    Except PageError (List WriteEvent) :=
  match DocGenerator._get_subdirectory lang with
  | .error e => .error (.valueError e)
  | .ok subdirectory =>
    let directory := os_path_join env.argsOutputdir subdirectory
    match EnumsPage.make lang env.absApiParser.enumsIndex with
    | .error e => .error (.valueError e)
    | .ok enumsPage =>
      match IndexPage.make lang with
      | .error e => .error (.valueError e)
      | .ok indexPage0 =>
        match DocGenerator.write_class_pages lang directory indexPage0
                env.absApiParser.classesIndex with
        | .error e => .error e
        | .ok (classEvents, indexPage) =>
          .ok (⟨os_path_join directory enumsPage.filename, .enumsPage enumsPage⟩
                :: classEvents
                ++ [⟨os_path_join directory indexPage.filename, .indexPage indexPage⟩])

/-- The language loop of `DocGenerator.generate`, in list order. -/
def DocGenerator.generate_langs (env : GlobalEnv) :
    List String → Except PageError (List WriteEvent)
  | [] => .ok []
  | lang :: rest =>
    match DocGenerator.generate_for_lang env lang with
    | .error e => .error e
    | .ok evs =>
      match DocGenerator.generate_langs env rest with
      | .error e => .error e
      | .ok evsRest => .ok (evs ++ evsRest)

/-- Model of `DocGenerator.generate(outputdir)`: iterates
`self.languages`, but reads the module-level `args.outputdir` and
`absApiParser` globals; neither the `outputdir` parameter nor `self.api`
is consulted. -/
def DocGenerator.generate (env : GlobalEnv) (g : DocGenerator) (_outputdir : String) :
    Except PageError (List WriteEvent) :=
  DocGenerator.generate_langs env g.languages

/-- Events of a finished run; an aborted run is not compared. -/
def eventsOf (r : Except PageError (List WriteEvent)) : List WriteEvent :=
  match r with
  | .ok evs => evs
  | .error _ => []

/-- An association-list file system: the files under the output
directory, each with the page whose rendering it holds. -/
def FileSystem := List (String × PageData)

/-- Writing one file with mode `w`: an existing file at the path is
replaced, otherwise the file is created. -/
def fs_set (fs : List (String × PageData)) (path : String) (page : PageData) :
    List (String × PageData) :=
  match fs with
  | [] => [(path, page)]
  | (p, d) :: rest => if p = path then (p, page) :: rest else (p, d) :: fs_set rest path page

/-- Replaying a list of write events on a file system, in order. -/
def apply_events (fs : List (String × PageData)) : List WriteEvent → List (String × PageData)
  | [] => fs
  | ev :: rest => apply_events (fs_set fs ev.path ev.page) rest

/-- Content of the file at a path, when present. -/
def fs_lookup (fs : List (String × PageData)) (path : String) : Option PageData :=
  match fs with
  | [] => none
  | (p, d) :: rest => if p = path then some d else fs_lookup rest path

/-- Last content written to a path by a list of events, when the path is
written at all. -/
def last_write (evs : List WriteEvent) (path : String) : Option PageData :=
  match evs with
  | [] => none
  | ev :: rest =>
    match last_write rest path with
    | some d => some d
    | none => if ev.path = path then some ev.page else none

/-- Whether an `Except` result is a normally returned value (no Python
exception was raised). -/
def except_ok {ε α : Type} : Except ε α → Bool
  | .ok _ => true
  | .error _ => false

/-- Whether a `ClassPage` construction was aborted by the language
check's `ValueError` (as opposed to succeeding or failing later). -/
def lang_rejected : Except PageError ClassPage → Bool
  | .error (.valueError _) => true
  | _ => false

/-- Whether a `ClassPage` construction was aborted by the
`AttributeError` of `_get_translated_namespace`. -/
def attr_error : Except PageError ClassPage → Bool
  | .error .attributeError => true
  | _ => false

/-- ASCII uppercase letter test (code points 65 to 90). -/
def ascii_upper (c : Char) : Bool := decide (65 ≤ c.toNat) && decide (c.toNat ≤ 90)

/-- A string free of ASCII uppercase letters. -/
def ascii_lowercased (s : String) : Bool := s.data.all (fun c => !ascii_upper c)

/-- Whether a write event lands in the `c` or `cpp` subdirectory of the
given output directory, at the filename stored in the written page. -/
def under_output_dir (out : String) (ev : WriteEvent) : Bool :=
  (ev.path == os_path_join (os_path_join out "c") ev.page.filenameOf)
  || (ev.path == os_path_join (os_path_join out "cpp") ev.page.filenameOf)

/-- Placeholder identifier for the `getD` in `spec_class_page`; it is
never reached when the class has a `Namespace` ancestor. -/
def default_name : Name := ⟨[], "", "", "", ""⟩

/-- Spec-side description of the class page produced for one class:
filename derived from the fully qualified class name, the translated
namespace, bare and full class names, brief, and the two independently
translated method lists. -/
def spec_class_page (lang : String) (nt : NameTranslatorKind) (lt : LangTranslatorKind)
    (c : AClass) : ClassPage :=
  ⟨⟨lang, nt, lt, nt, SphinxPage._classname_to_filename c.name⟩,
   ((find_first_ancestor_namespace c.ancestors).getD default_name).translate nt true,
   c.name.translate nt false,
   c.name.translate nt true,
   c.briefDescription.translate nt,
   ClassPage._translate_methods nt lt c.instanceMethods,
   ClassPage._translate_methods nt lt c.classMethods⟩

/-- Spec-side description of one per-language generation round, following
the spec's words: first the enums page (fixed filename `enums.rst`) is
written, then one class page per class of the project in the project's
internal order, and finally the index page (fixed filename `index.rst`)
holding one entry per class in the same order. -/
def spec_round (env : GlobalEnv) (lang sub : String) (nt : NameTranslatorKind)
    (lt : LangTranslatorKind) : List WriteEvent :=
  let dir := os_path_join env.argsOutputdir sub
  ⟨os_path_join dir "enums.rst",
   .enumsPage ⟨⟨lang, nt, lt, nt, "enums.rst"⟩,
               EnumsPage._translate_enums nt lt env.absApiParser.enumsIndex⟩⟩
  :: env.absApiParser.classesIndex.map
       (fun c => ⟨os_path_join dir (SphinxPage._classname_to_filename c.name),
                  .classPage (spec_class_page lang nt lt c)⟩)
  ++ [⟨os_path_join dir "index.rst",
       .indexPage ⟨⟨lang, nt, lt, nt, "index.rst"⟩,
                   env.absApiParser.classesIndex.map
                     (fun c => ⟨SphinxPage._classname_to_filename c.name⟩)⟩⟩]

/-- Concrete brief description used by the sample project. -/
def demo_doc : Doc := ⟨"brief for C", "brief for Cpp"⟩

/-- Concrete namespace name `Foo` with its translations. -/
def demo_ns_name : Name := ⟨[["Foo"]], "foo", "linphone_foo", "Foo", "Foo"⟩

/-- Concrete class name `Foo.BarBaz` with its translations. -/
def demo_class_name : Name :=
  ⟨[["Foo"], ["Bar", "Baz"]], "bar_baz", "LinphoneFooBarBaz", "BarBaz", "Foo::BarBaz"⟩

/-- Concrete enum name `Foo.State` with its translations. -/
def demo_enum_name : Name :=
  ⟨[["Foo"], ["State"]], "state", "LinphoneFooState", "State", "Foo::State"⟩

/-- Concrete method of the sample class. -/
def demo_method : AMethod :=
  ⟨"void linphone_foo_bar_baz_do_thing(LinphoneFooBarBaz *obj)", "void doThing()", demo_doc⟩

/-- First enumerator of the sample enum. -/
def demo_enumerator_a : Enumerator := ⟨⟨[["A"]], "a", "A", "a", "A"⟩, demo_doc, "0", "0"⟩

/-- Second enumerator of the sample enum. -/
def demo_enumerator_b : Enumerator := ⟨⟨[["B"]], "b", "B", "b", "B"⟩, demo_doc, "1", "1"⟩

/-- Sample enum with two enumerators in declaration order. -/
def demo_enum : AEnum := ⟨demo_enum_name, demo_doc, [demo_enumerator_a, demo_enumerator_b]⟩

/-- Sample class: one instance method, no class methods, and a
`Namespace` ancestor. -/
def demo_class : AClass :=
  ⟨demo_class_name, demo_doc, [demo_method], [], [.namespaceNode demo_ns_name]⟩

/-- Sample class whose ancestor chain holds no `Namespace` node. -/
def demo_class_no_ns : AClass :=
  ⟨demo_class_name, demo_doc, [demo_method], [], [.otherNode demo_ns_name]⟩

/-- Sample parsed project: one enum and one class. -/
def demo_project : AbstractProject := ⟨[demo_enum], [demo_class]⟩

/-- Second sample project, for comparing generators built from different
`api` arguments. -/
def demo_project_b : AbstractProject := ⟨[], []⟩

/-- Sample module-level state: output directory `out` and the sample
project as the global parser. -/
def demo_env : GlobalEnv := ⟨"out", demo_project⟩

/-- Sample freshly constructed index page for the language `C`. -/
def demo_index : IndexPage :=
  ⟨⟨"C", .cTranslator, .cLangTranslator, .cTranslator, "index.rst"⟩, []⟩

/-- The enums page that `EnumsPage.make "C" [demo_enum]` returns. -/
def demo_enums_page : EnumsPage :=
  ⟨⟨"C", .cTranslator, .cLangTranslator, .cTranslator, "enums.rst"⟩,
   [⟨"state", "LinphoneFooState", "brief for C",
     [⟨"a", "brief for C", "0"⟩, ⟨"b", "brief for C", "1"⟩],
     "state\n====="⟩]⟩

/-- Sample generator instance built from the sample project. -/
def demo_generator : DocGenerator := DocGenerator.make demo_project

/-- The write events of a full generation run over the sample
module-level state. -/
def demo_events : List WriteEvent :=
  eventsOf (DocGenerator.generate demo_env demo_generator "unused")

/-- A file system holding one stale file at a path the sample run
writes. -/
def demo_stale_fs : List (String × PageData) :=
  [("out/c/enums.rst", .indexPage demo_index)]

/-- The class page that `ClassPage.make demo_class "C"` returns. -/
def demo_class_page : ClassPage :=
  ⟨⟨"C", .cTranslator, .cLangTranslator, .cTranslator, "foo_bar_baz.rst"⟩,
   "linphone_foo", "bar_baz", "LinphoneFooBarBaz", "brief for C",
   [⟨"void linphone_foo_bar_baz_do_thing(LinphoneFooBarBaz *obj)", "brief for C"⟩], []⟩

/-- A left fold that appends one element per input is a map. -/
theorem foldl_append_map {α β : Type} (f : α → β) (l : List α) (acc : List β) :
    List.foldl (fun a x => a ++ [f x]) acc l = acc ++ l.map f := by
  induction l generalizing acc with
  | nil => simp
  | cons x xs ih => simp [List.foldl, ih]

/-- The enumerator loop of the enums page is a map over the source
enumerators, in order. -/
theorem translate_enum_values_eq_map (nt : NameTranslatorKind) (lt : LangTranslatorKind)
    (e : AEnum) :
    EnumsPage._translate_enum_values nt lt e
      = e.enumerators.map (fun er =>
          ⟨er.name.translate nt false, er.briefDescription.translate nt,
           er.translate_value lt⟩) := by
  simpa [EnumsPage._translate_enum_values] using
    foldl_append_map
      (fun er : Enumerator =>
        (⟨er.name.translate nt false, er.briefDescription.translate nt,
          er.translate_value lt⟩ : TranslatedEnumerator))
      e.enumerators []

/-- The method loop of a class page is a map over the source methods, in
order. -/
theorem translate_methods_eq_map (nt : NameTranslatorKind) (lt : LangTranslatorKind)
    (ms : List AMethod) :
    ClassPage._translate_methods nt lt ms
      = ms.map (fun m => ⟨m.translate_as_prototype lt, m.briefDescription.translate nt⟩) := by
  simpa [ClassPage._translate_methods] using
    foldl_append_map
      (fun m : AMethod =>
        (⟨m.translate_as_prototype lt, m.briefDescription.translate nt⟩ : TranslatedMethod))
      ms []

/-- The method loop preserves the length of the method list. -/
theorem translate_methods_length (nt : NameTranslatorKind) (lt : LangTranslatorKind)
    (ms : List AMethod) :
    (ClassPage._translate_methods nt lt ms).length = ms.length := by
  rw [translate_methods_eq_map, List.length_map]

/-- Lowercasing a character never yields an ASCII uppercase letter. -/
theorem ascii_upper_toLower (c : Char) : ascii_upper (Char.toLower c) = false := by
  simp only [Char.toLower]
  split
  · next h =>
    obtain ⟨h1, h2⟩ := h
    have hv : (c.toNat + 32).isValidChar := by
      constructor
      omega
    simp only [Char.ofNat, dif_pos hv]
    have he : (Char.ofNatAux (c.toNat + 32) hv).toNat = c.toNat + 32 := rfl
    simp only [ascii_upper, he, Bool.and_eq_false_iff, decide_eq_false_iff_not, not_le]
    right
    omega
  · next h =>
    simp only [ascii_upper, Bool.and_eq_false_iff, decide_eq_false_iff_not, not_le]
    omega

/-- Applying the Python `lower` model yields a string free of ASCII
uppercase letters. -/
theorem ascii_lowercased_py_lower (s : String) : ascii_lowercased (py_lower s) = true := by
  simp only [ascii_lowercased, py_lower, List.all_eq_true]
  intro c hc
  simp only [List.mem_map] at hc
  obtain ⟨c0, _, rfl⟩ := hc
  simp [ascii_upper_toLower]

/-- The snake-case join of any word list is free of ASCII uppercase
letters. -/
theorem ascii_lowercased_snake_join (l : List String) :
    ascii_lowercased (snake_join l) = true := by
  induction l with
  | nil => rfl
  | cons w rest ih =>
    cases rest with
    | nil => simpa [snake_join] using ascii_lowercased_py_lower w
    | cons w2 rest2 =>
      have h1 := ascii_lowercased_py_lower w
      simp only [snake_join, ascii_lowercased] at h1 ih ⊢
      simp only [String.data_append, List.all_append, h1, ih, Bool.and_true, Bool.true_and]
      rfl

/-- The snake-case form of any identifier is free of ASCII uppercase
letters. -/
theorem ascii_lowercased_to_snake_case (n : Name) (b : Bool) :
    ascii_lowercased (n.to_snake_case b) = true := by
  unfold Name.to_snake_case
  exact ascii_lowercased_snake_join _

/-- Characterization of `ClassPage.make` once the language check has
selected translators: the result is the spec-side class page, or the
`AttributeError` when the class has no `Namespace` ancestor. -/
theorem ClassPage.make_eq (c : AClass) (lang : String) (nt : NameTranslatorKind)
    (lt : LangTranslatorKind)
    (h : SphinxPage._init_translation_info lang = .ok (nt, lt)) :
    ClassPage.make c lang =
      match find_first_ancestor_namespace c.ancestors with
      | none => .error .attributeError
      | some _ => .ok (spec_class_page lang nt lt c) := by
  unfold ClassPage.make SphinxPage.make
  rw [h]
  unfold ClassPage._get_translated_namespace
  cases hf : find_first_ancestor_namespace c.ancestors with
  | none => rfl
  | some nsn => simp [spec_class_page, hf]

/-- Characterization of the class loop when every class has a `Namespace`
ancestor: the writes are one class page per class in order, and the index
page gains one entry per class in the same order. -/
theorem write_class_pages_eq (lang directory : String) (nt : NameTranslatorKind)
    (lt : LangTranslatorKind)
    (h : SphinxPage._init_translation_info lang = .ok (nt, lt)) :
    ∀ (classes : List AClass) (idx : IndexPage),
      (∀ c ∈ classes, (find_first_ancestor_namespace c.ancestors).isSome = true) →
      DocGenerator.write_class_pages lang directory idx classes =
        .ok (classes.map (fun c =>
               ⟨os_path_join directory (SphinxPage._classname_to_filename c.name),
                .classPage (spec_class_page lang nt lt c)⟩),
             { idx with tocEntries := idx.tocEntries
                 ++ classes.map (fun c => ⟨SphinxPage._classname_to_filename c.name⟩) }) := by
  intro classes
  induction classes with
  | nil => intro idx _; simp [DocGenerator.write_class_pages]
  | cons c rest ih =>
    intro idx hall
    have hc := hall c (by simp)
    obtain ⟨nsn, hns⟩ := Option.isSome_iff_exists.mp hc
    rw [DocGenerator.write_class_pages, ClassPage.make_eq c lang nt lt h, hns]
    rw [ih (idx.add_class_entry c) (fun x hx => hall x (List.mem_cons_of_mem c hx))]
    simp [IndexPage.add_class_entry, spec_class_page]

/-- The subdirectory chosen for a supported language is `c` or `cpp`. -/
theorem get_subdirectory_cases (lang sub : String)
    (h : DocGenerator._get_subdirectory lang = .ok sub) : sub = "c" ∨ sub = "cpp" := by
  simp only [DocGenerator._get_subdirectory] at h
  split_ifs at h
  · exact Or.inl (Except.ok.inj h).symm
  · exact Or.inr (Except.ok.inj h).symm

/-- Characterization of one language round when the language is supported
and every class has a `Namespace` ancestor: the writes are exactly the
spec-side round. -/
theorem generate_for_lang_eq (env : GlobalEnv) (lang sub : String)
    (nt : NameTranslatorKind) (lt : LangTranslatorKind)
    (hsub : DocGenerator._get_subdirectory lang = .ok sub)
    (hinit : SphinxPage._init_translation_info lang = .ok (nt, lt))
    (hall : ∀ c ∈ env.absApiParser.classesIndex,
      (find_first_ancestor_namespace c.ancestors).isSome = true) :
    DocGenerator.generate_for_lang env lang = .ok (spec_round env lang sub nt lt) := by
  have he : EnumsPage.make lang env.absApiParser.enumsIndex
      = .ok ⟨⟨lang, nt, lt, nt, "enums.rst"⟩,
             EnumsPage._translate_enums nt lt env.absApiParser.enumsIndex⟩ := by
    unfold EnumsPage.make SphinxPage.make
    rw [hinit]
  have hi : IndexPage.make lang = .ok ⟨⟨lang, nt, lt, nt, "index.rst"⟩, []⟩ := by
    unfold IndexPage.make SphinxPage.make
    rw [hinit]
  have hw := write_class_pages_eq lang (os_path_join env.argsOutputdir sub) nt lt hinit
      env.absApiParser.classesIndex ⟨⟨lang, nt, lt, nt, "index.rst"⟩, []⟩ hall
  simp only [DocGenerator.generate_for_lang, hsub, he, hi, hw, spec_round,
    List.nil_append]

/-- Looking a path up after one write: the written path holds the new
content, every other path is untouched. -/
theorem fs_lookup_fs_set (fs : List (String × PageData)) (q : String) (d : PageData)
    (p : String) :
    fs_lookup (fs_set fs q d) p = if q = p then some d else fs_lookup fs p := by
  induction fs with
  | nil =>
    by_cases h : q = p <;> simp [fs_set, fs_lookup, h]
  | cons hd tl ih =>
    obtain ⟨a, b⟩ := hd
    by_cases haq : a = q
    · subst haq
      by_cases hap : a = p <;> simp [fs_set, fs_lookup, hap]
    · by_cases hap : a = p
      · subst hap
        simp [fs_set, fs_lookup, haq, Ne.symm haq]
      · simp [fs_set, fs_lookup, haq, hap, ih]

/-- Looking a path up after replaying a list of writes: the last write to
the path wins, and a path never written keeps its prior content. -/
theorem fs_lookup_apply_events (evs : List WriteEvent) (fs : List (String × PageData))
    (p : String) :
    fs_lookup (apply_events fs evs) p =
      match last_write evs p with
      | some d => some d
      | none => fs_lookup fs p := by
  induction evs generalizing fs with
  | nil => simp [apply_events, last_write]
  | cons ev rest ih =>
    simp only [apply_events, last_write]
    rw [ih]
    cases h : last_write rest p with
    | some d => simp
    | none =>
      rw [fs_lookup_fs_set]
      by_cases hp : ev.path = p <;> simp [hp]

/-- Every write of the class loop lands at the joined path of the loop's
directory and the written page's own filename. -/
theorem write_class_pages_paths (lang directory : String) :
    ∀ (classes : List AClass) (idx : IndexPage) (evs : List WriteEvent) (idx2 : IndexPage),
      DocGenerator.write_class_pages lang directory idx classes = .ok (evs, idx2) →
      ∀ ev ∈ evs, ev.path = os_path_join directory ev.page.filenameOf := by
  intro classes
  induction classes with
  | nil =>
    intro idx evs idx2 h
    simp only [DocGenerator.write_class_pages, Except.ok.injEq, Prod.mk.injEq] at h
    obtain ⟨rfl, rfl⟩ := h
    intro ev hev
    cases hev
  | cons c rest ih =>
    intro idx evs idx2 h
    simp only [DocGenerator.write_class_pages] at h
    split at h
    · cases h
    · next page hm =>
      split at h
      · cases h
      · next evs' idx' hr =>
        simp only [Except.ok.injEq, Prod.mk.injEq] at h
        obtain ⟨rfl, rfl⟩ := h
        intro ev hev
        rcases List.mem_cons.mp hev with rfl | hmem
        · rfl
        · exact ih (idx.add_class_entry c) evs' idx' hr ev hmem

/-- Every write of one language round lands in the round's subdirectory
under the global output directory, at the page's own filename. -/
theorem generate_for_lang_paths (env : GlobalEnv) (lang : String) (evs : List WriteEvent)
    (h : DocGenerator.generate_for_lang env lang = .ok evs) :
    ∀ ev ∈ evs, under_output_dir env.argsOutputdir ev = true := by
  unfold DocGenerator.generate_for_lang at h
  split at h
  · cases h
  · next sub hsub =>
    simp only at h
    split at h
    · cases h
    · next enumsPage hen =>
      split at h
      · cases h
      · next indexPage0 hidx =>
        split at h
        · cases h
        · next classEvents indexPage hw =>
          simp only [Except.ok.injEq] at h
          subst h
          have hfix : ∀ ev : WriteEvent,
              ev.path = os_path_join (os_path_join env.argsOutputdir sub) ev.page.filenameOf →
              under_output_dir env.argsOutputdir ev = true := by
            intro ev hp
            rcases get_subdirectory_cases lang sub hsub with rfl | rfl <;>
              simp [under_output_dir, hp]
          intro ev hev
          rcases List.mem_cons.mp hev with rfl | hmem
          · exact hfix _ rfl
          · rcases List.mem_append.mp hmem with hcl | hlast
            · exact hfix ev (write_class_pages_paths lang _ _ _ _ _ hw ev hcl)
            · rcases List.mem_singleton.mp hlast with rfl
              exact hfix _ rfl

/-- Every write of a full generation run lands in the `c` or `cpp`
subdirectory of the global output directory. -/
theorem generate_langs_paths (env : GlobalEnv) :
    ∀ (langs : List String) (evs : List WriteEvent),
      DocGenerator.generate_langs env langs = .ok evs →
      ∀ ev ∈ evs, under_output_dir env.argsOutputdir ev = true := by
  intro langs
  induction langs with
  | nil =>
    intro evs h
    simp only [DocGenerator.generate_langs, Except.ok.injEq] at h
    subst h
    simp
  | cons lang rest ih =>
    intro evs h
    simp only [DocGenerator.generate_langs] at h
    split at h
    · cases h
    · next evs1 h1 =>
      split at h
      · cases h
      · next evs2 h2 =>
        simp only [Except.ok.injEq] at h
        subst h
        intro ev hev
        rcases List.mem_append.mp hev with hm | hm
        · exact generate_for_lang_paths env lang evs1 h1 ev hm
        · exact ih evs2 h2 ev hm

/-- The Python bool `len(l) > 0` is the negated emptiness test. -/
theorem decide_length_pos {α : Type} (l : List α) : decide (0 < l.length) = !l.isEmpty := by
  cases l <;> simp

/-- The Python int `len(l)` is truthy exactly when the list is
non-empty. -/
theorem decide_length_ne_zero {α : Type} (l : List α) :
    decide (l.length ≠ 0) = !l.isEmpty := by
  cases l <;> simp

/-- The length of a list is zero exactly when the list is empty. -/
theorem length_beq_zero {α : Type} (l : List α) : (l.length == 0) = l.isEmpty := by
  cases l <;> simp

/-- A successfully constructed base page stores the filename it was given. -/
theorem sphinxpage_make_filename (lang f : String) (sp : SphinxPage)
    (h : SphinxPage.make lang f = .ok sp) : sp.filename = f := by
  unfold SphinxPage.make at h
  split at h
  · cases h
  · simp only [Except.ok.injEq] at h
    subst h
    rfl

/-- A successfully constructed class page stores the filename derived by
`_classname_to_filename` from the class name. -/
theorem classpage_make_filename (c : AClass) (lang : String) (p : ClassPage)
    (h : ClassPage.make c lang = .ok p) :
    p.filename = SphinxPage._classname_to_filename c.name := by
  unfold ClassPage.make at h
  split at h
  · cases h
  · next base hb =>
    split at h
    · cases h
    · simp only [Except.ok.injEq] at h
      subst h
      exact sphinxpage_make_filename lang _ base hb

/-- A successfully constructed class page carries the translations of the
class's data made with the page's selected translators. -/
theorem classpage_make_fields (c : AClass) (lang : String) (p : ClassPage)
    (h : ClassPage.make c lang = .ok p) :
    p.methods = ClassPage._translate_methods p.nameTranslator p.langTranslator c.instanceMethods
    ∧ p.classMethods
      = ClassPage._translate_methods p.nameTranslator p.langTranslator c.classMethods := by
  unfold ClassPage.make at h
  split at h
  · cases h
  · next base hb =>
    split at h
    · cases h
    · simp only [Except.ok.injEq] at h
      subst h
      exact ⟨rfl, rfl⟩

/-- A successfully constructed enums page has the fixed filename
`enums.rst`. -/
theorem enumspage_make_filename (lang : String) (es : List AEnum) (pe : EnumsPage)
    (h : EnumsPage.make lang es = .ok pe) : pe.filename = "enums.rst" := by
  unfold EnumsPage.make at h
  split at h
  · cases h
  · next base hb =>
    simp only [Except.ok.injEq] at h
    subst h
    exact sphinxpage_make_filename lang _ base hb

/-- A successfully constructed index page has the fixed filename
`index.rst`. -/
theorem indexpage_make_filename (lang : String) (px : IndexPage)
    (h : IndexPage.make lang = .ok px) : px.filename = "index.rst" := by
  unfold IndexPage.make at h
  split at h
  · cases h
  · next base hb =>
    simp only [Except.ok.injEq] at h
    subst h
    exact sphinxpage_make_filename lang _ base hb

/-- Once the language check has passed, a class page construction is
never aborted by the language `ValueError`. -/
theorem lang_rejected_of_init_ok (c : AClass) (s : String) (nt : NameTranslatorKind)
    (lt : LangTranslatorKind)
    (h : SphinxPage._init_translation_info s = .ok (nt, lt)) :
    lang_rejected (ClassPage.make c s) = false := by
  rw [ClassPage.make_eq c s nt lt h]
  cases find_first_ancestor_namespace c.ancestors <;> rfl

/-- When the language check fails, a class page construction is aborted
by the language `ValueError`. -/
theorem lang_rejected_of_init_error (c : AClass) (s e : String)
    (h : SphinxPage._init_translation_info s = .error e) :
    lang_rejected (ClassPage.make c s) = true := by
  simp [ClassPage.make, SphinxPage.make, h, lang_rejected]

/-- Claim C1, counterexample: the claim states that both exposed flags
are booleans and that a class page built from a class with zero class
methods reports `hasClassMethods = false`. On the sample class with zero
class methods the page's `hasClassMethods` is the Python int `0` — a
falsy value, but not a boolean and not the value `False` — because
`_has_class_methods` returns `len(self.classMethods)` with no `> 0`
comparison. -/
theorem claim_C1_counterexample :
    ClassPage.make demo_class "C" = .ok demo_class_page
    ∧ demo_class.classMethods = []
    ∧ demo_class_page.hasClassMethods = .int 0
    ∧ PyVal.isBool demo_class_page.hasClassMethods = false
    ∧ demo_class_page.hasClassMethods ≠ .bool false := by
  exact ⟨rfl, rfl, rfl, rfl, by decide⟩

/-- Claim C1 (amended): `hasMethods` is the boolean non-emptiness of the
translated instance-method list, and reports `false` for a class with
zero instance methods; `hasClassMethods` is the *integer* length of the
translated class-method list — not a boolean — which is Python-falsy
(and `==`-equal to `False`) exactly when the class has zero class
methods. -/
theorem claim_C1 (c : AClass) (lang : String) (p : ClassPage)
    (h : ClassPage.make c lang = .ok p) :
    p.hasMethods = .bool (!c.instanceMethods.isEmpty)
    ∧ p.hasClassMethods = .int c.classMethods.length
    ∧ PyVal.truthy p.hasMethods = !c.instanceMethods.isEmpty
    ∧ PyVal.truthy p.hasClassMethods = !c.classMethods.isEmpty
    ∧ PyVal.isBool p.hasMethods = true
    ∧ PyVal.pyEq p.hasClassMethods (.bool false) = c.classMethods.isEmpty := by
  obtain ⟨hm, hcm⟩ := classpage_make_fields c lang p h
  have hml : p.methods.length = c.instanceMethods.length := by
    rw [hm, translate_methods_length]
  have hcml : p.classMethods.length = c.classMethods.length := by
    rw [hcm, translate_methods_length]
  refine ⟨?_, ?_, ?_, ?_, ?_, ?_⟩
  · simp only [ClassPage.hasMethods, hml, decide_length_pos]
  · simp only [ClassPage.hasClassMethods, hcml]
  · simp only [ClassPage.hasMethods, PyVal.truthy, hml, decide_length_pos]
  · simp only [ClassPage.hasClassMethods, PyVal.truthy, hcml, decide_length_ne_zero]
  · simp only [ClassPage.hasMethods, PyVal.isBool]
  · simp [ClassPage.hasClassMethods, PyVal.pyEq, PyVal.toNat, hcml, length_beq_zero]

/-- Claim C1, witness: the amended statement evaluated on the sample
class (one instance method, zero class methods). -/
theorem claim_C1_witness :
    ClassPage.make demo_class "C" = .ok demo_class_page
    ∧ (demo_class_page.hasMethods = .bool (!demo_class.instanceMethods.isEmpty)
       ∧ demo_class_page.hasClassMethods = .int demo_class.classMethods.length
       ∧ PyVal.truthy demo_class_page.hasMethods = !demo_class.instanceMethods.isEmpty
       ∧ PyVal.truthy demo_class_page.hasClassMethods = !demo_class.classMethods.isEmpty
       ∧ PyVal.isBool demo_class_page.hasMethods = true
       ∧ PyVal.pyEq demo_class_page.hasClassMethods (.bool false)
           = demo_class.classMethods.isEmpty) :=
  ⟨rfl, claim_C1 demo_class "C" demo_class_page rfl⟩

/-- Claim C2: `DocGenerator.generate` reads only the module-level state
(the global `args.outputdir` and the global `absApiParser`): two
generators constructed from different `api` objects, called with
different `outputdir` arguments, produce identical results, and every
write of a successful run lands under the global `args.outputdir` (in
its `c` or `cpp` subdirectory, at the page's own filename). -/
theorem claim_C2 (env : GlobalEnv) (api1 api2 : AbstractProject) (o1 o2 : String) :
    DocGenerator.generate env (DocGenerator.make api1) o1
      = DocGenerator.generate env (DocGenerator.make api2) o2
    ∧ (eventsOf (DocGenerator.generate env (DocGenerator.make api1) o1)).all
        (fun ev => under_output_dir env.argsOutputdir ev) = true := by
  constructor
  · rfl
  · cases hg : DocGenerator.generate env (DocGenerator.make api1) o1 with
    | error e => simp [eventsOf]
    | ok evs =>
      simp only [eventsOf, List.all_eq_true]
      exact fun ev hev => generate_langs_paths env ["C", "C++"] evs hg ev hev

/-- Claim C3: the filename of a class's own page and the entry appended
for that class to the index page are both
`SphinxPage._classname_to_filename` of the class's name, so the index
cross-links resolve. -/
theorem claim_C3 (c : AClass) (lang : String) (p : ClassPage) (idx : IndexPage)
    (h : ClassPage.make c lang = .ok p) :
    p.filename = SphinxPage._classname_to_filename c.name
    ∧ (IndexPage.add_class_entry idx c).tocEntries
        = idx.tocEntries ++ [⟨SphinxPage._classname_to_filename c.name⟩] :=
  ⟨classpage_make_filename c lang p h, rfl⟩

/-- Claim C3, witness: the cross-link equality evaluated on the sample
class and an empty index page. -/
theorem claim_C3_witness :
    demo_class_page.filename = SphinxPage._classname_to_filename demo_class.name
    ∧ (IndexPage.add_class_entry demo_index demo_class).tocEntries
        = demo_index.tocEntries ++ [⟨SphinxPage._classname_to_filename demo_class.name⟩] :=
  claim_C3 demo_class "C" demo_class_page demo_index rfl

/-- Claim C4: a language string whose lowercase form is neither `c` nor
`c++` makes every page constructor raise `ValueError` (and
`_get_subdirectory` as well); pages only write in their separate `write`
method, so no file is written by the failing page. -/
theorem claim_C4 (s f : String) (es : List AEnum) (c : AClass)
    (h1 : py_lower s ≠ "c") (h2 : py_lower s ≠ "c++") :
    SphinxPage.make s f = .error s
    ∧ IndexPage.make s = .error s
    ∧ EnumsPage.make s es = .error s
    ∧ ClassPage.make c s = .error (.valueError s)
    ∧ DocGenerator._get_subdirectory s
        = .error ("'" ++ s ++ "' language not supported") := by
  have hi : SphinxPage._init_translation_info s = .error s := by
    unfold SphinxPage._init_translation_info
    rw [if_neg h1, if_neg h2]
  have hp : ∀ f', SphinxPage.make s f' = .error s := by
    intro f'
    simp [SphinxPage.make, hi]
  refine ⟨hp f, ?_, ?_, ?_, ?_⟩
  · simp [IndexPage.make, hp "index.rst"]
  · simp [EnumsPage.make, hp "enums.rst"]
  · simp [ClassPage.make, hp (SphinxPage._classname_to_filename c.name)]
  · simp [DocGenerator._get_subdirectory, h1, h2]

/-- Claim C4, witness: the unsupported language `Java` is rejected by
every constructor and by `_get_subdirectory`. -/
theorem claim_C4_witness :
    SphinxPage.make "Java" "page.rst" = .error "Java"
    ∧ IndexPage.make "Java" = .error "Java"
    ∧ EnumsPage.make "Java" [demo_enum] = .error "Java"
    ∧ ClassPage.make demo_class "Java" = .error (.valueError "Java")
    ∧ DocGenerator._get_subdirectory "Java"
        = .error ("'" ++ "Java" ++ "' language not supported") :=
  claim_C4 "Java" "page.rst" [demo_enum] demo_class (by decide) (by decide)

/-- Claim C5: the translated enumerator list of an enum has the same
length as the source enumerator list and its element at every index is
the translation of the source enumerator at that same index: declaration
order is preserved, with no sorting or reordering. -/
theorem claim_C5 (nt : NameTranslatorKind) (lt : LangTranslatorKind) (e : AEnum) (i : Nat) :
    (EnumsPage._translate_enum_values nt lt e).length = e.enumerators.length
    ∧ (EnumsPage._translate_enum_values nt lt e)[i]?
        = (e.enumerators[i]?).map (fun er =>
            ⟨er.name.translate nt false, er.briefDescription.translate nt,
             er.translate_value lt⟩) := by
  rw [translate_enum_values_eq_map]
  exact ⟨by simp, by simp⟩

/-- Claim C6: for a generator carrying the standard language list, and
provided every class of the global project has a `Namespace` ancestor (so
no construction aborts), a run writes exactly: first the full `C` round,
then the full `C++` round, where each round writes the enums page first,
then one class page per class in the project's internal order, and the
index page last, holding one entry per class in the same order — as
described by the spec-side `spec_round`. -/
theorem claim_C6 (env : GlobalEnv) (g : DocGenerator) (outputdir : String)
    (hl : g.languages = ["C", "C++"])
    (hall : ∀ c ∈ env.absApiParser.classesIndex,
      (find_first_ancestor_namespace c.ancestors).isSome = true) :
    DocGenerator.generate env g outputdir
      = .ok (spec_round env "C" "c" .cTranslator .cLangTranslator
             ++ spec_round env "C++" "cpp" .cppTranslator .cppLangTranslator) := by
  have h1 := generate_for_lang_eq env "C" "c" .cTranslator .cLangTranslator
    (by rfl) (by rfl) hall
  have h2 := generate_for_lang_eq env "C++" "cpp" .cppTranslator .cppLangTranslator
    (by rfl) (by rfl) hall
  unfold DocGenerator.generate
  rw [hl]
  simp only [DocGenerator.generate_langs, h1, h2, List.append_nil]

/-- Claim C6, witness: the generation order evaluated on the sample
module-level state. -/
theorem claim_C6_witness :
    DocGenerator.generate demo_env demo_generator "elsewhere"
      = .ok (spec_round demo_env "C" "c" .cTranslator .cLangTranslator
             ++ spec_round demo_env "C++" "cpp" .cppTranslator .cppLangTranslator) :=
  claim_C6 demo_env demo_generator "elsewhere" rfl (by decide)

/-- Claim C7: a class page's filename is the class's fully qualified name
in snake case — free of ASCII uppercase letters, underscore-joined, with
the fixed extension `.rst` — while the enums page and the index page use
the fixed filenames `enums.rst` and `index.rst`. -/
theorem claim_C7 (c : AClass) (lang langE langI : String) (es : List AEnum)
    (p : ClassPage) (pe : EnumsPage) (pidx : IndexPage)
    (h : ClassPage.make c lang = .ok p)
    (he : EnumsPage.make langE es = .ok pe)
    (hix : IndexPage.make langI = .ok pidx) :
    p.filename = c.name.to_snake_case true ++ ".rst"
    ∧ ascii_lowercased (c.name.to_snake_case true) = true
    ∧ pe.filename = "enums.rst"
    ∧ pidx.filename = "index.rst" :=
  ⟨classpage_make_filename c lang p h,
   ascii_lowercased_to_snake_case c.name true,
   enumspage_make_filename langE es pe he,
   indexpage_make_filename langI pidx hix⟩

/-- Claim C7, witness: the filename shapes evaluated on the sample pages
for the language `C`. -/
theorem claim_C7_witness :
    demo_class_page.filename = demo_class.name.to_snake_case true ++ ".rst"
    ∧ ascii_lowercased (demo_class.name.to_snake_case true) = true
    ∧ demo_enums_page.filename = "enums.rst"
    ∧ demo_index.filename = "index.rst" :=
  claim_C7 demo_class "C" "C" "C" [demo_enum] demo_class_page demo_enums_page demo_index
    rfl rfl rfl

/-- Claim C8: generation is deterministic and overwriting. In the pure
embedding every translation is a function, so one run's write events are
a function of the module-level state; replaying the same run's events a
second time leaves every file exactly as the first replay did
(byte-identical re-run), and the content at every written path is
independent of whatever file system the run started from (unconditional
overwrite, no merging with prior content). -/
theorem claim_C8 (env : GlobalEnv) (g : DocGenerator) (o : String) (evs : List WriteEvent)
    (fs0 fs0' : List (String × PageData)) (p : String)
    (_hg : DocGenerator.generate env g o = .ok evs)
    (hw : (last_write evs p).isSome = true) :
    fs_lookup (apply_events (apply_events fs0 evs) evs) p
      = fs_lookup (apply_events fs0 evs) p
    ∧ fs_lookup (apply_events fs0 evs) p = fs_lookup (apply_events fs0' evs) p := by
  obtain ⟨d, hd⟩ := Option.isSome_iff_exists.mp hw
  constructor
  · simp [fs_lookup_apply_events, hd]
  · simp [fs_lookup_apply_events, hd]

/-- Claim C8, witness: re-running the sample generation changes nothing,
and the content of the written enums file does not depend on a stale file
previously sitting at its path. -/
theorem claim_C8_witness :
    fs_lookup (apply_events (apply_events [] demo_events) demo_events) "out/c/enums.rst"
      = fs_lookup (apply_events [] demo_events) "out/c/enums.rst"
    ∧ fs_lookup (apply_events [] demo_events) "out/c/enums.rst"
      = fs_lookup (apply_events demo_stale_fs demo_events) "out/c/enums.rst" :=
  claim_C8 demo_env demo_generator "unused" demo_events [] demo_stale_fs "out/c/enums.rst"
    rfl (by rfl)

/-- Claim C9: language selection is case-insensitive and total on the two
supported names: a page constructor succeeds exactly when the lowercased
language string is `c` or `c++` (selecting the C or C++ translators
respectively), `_get_subdirectory` maps those cases to the fixed
subdirectory names `c` and `cpp`, and every other string raises
`ValueError` in both places (for `ClassPage` this is the `ValueError`
rejection, whatever the class). -/
theorem claim_C9 (s f : String) (es : List AEnum) (c : AClass) :
    SphinxPage.make s f
      = (if py_lower s = "c"
         then .ok ⟨s, .cTranslator, .cLangTranslator, .cTranslator, f⟩
         else if py_lower s = "c++"
         then .ok ⟨s, .cppTranslator, .cppLangTranslator, .cppTranslator, f⟩
         else .error s)
    ∧ DocGenerator._get_subdirectory s
      = (if py_lower s = "c" then .ok "c"
         else if py_lower s = "c++" then .ok "cpp"
         else .error ("'" ++ s ++ "' language not supported"))
    ∧ except_ok (SphinxPage.make s f)
      = (decide (py_lower s = "c") || decide (py_lower s = "c++"))
    ∧ except_ok (IndexPage.make s) = except_ok (SphinxPage.make s "index.rst")
    ∧ except_ok (EnumsPage.make s es) = except_ok (SphinxPage.make s "enums.rst")
    ∧ lang_rejected (ClassPage.make c s)
      = !(decide (py_lower s = "c") || decide (py_lower s = "c++"))
    ∧ except_ok (DocGenerator._get_subdirectory s)
      = (decide (py_lower s = "c") || decide (py_lower s = "c++")) := by
  by_cases h1 : py_lower s = "c"
  · have hin : SphinxPage._init_translation_info s = .ok (.cTranslator, .cLangTranslator) := by
      simp [SphinxPage._init_translation_info, h1]
    refine ⟨?_, ?_, ?_, ?_, ?_, ?_, ?_⟩ <;>
      simp [SphinxPage.make, IndexPage.make, EnumsPage.make,
        DocGenerator._get_subdirectory, except_ok, hin, h1,
        lang_rejected_of_init_ok c s _ _ hin]
  · by_cases h2 : py_lower s = "c++"
    · have hin : SphinxPage._init_translation_info s
          = .ok (.cppTranslator, .cppLangTranslator) := by
        simp [SphinxPage._init_translation_info, h1, h2]
      refine ⟨?_, ?_, ?_, ?_, ?_, ?_, ?_⟩ <;>
        simp [SphinxPage.make, IndexPage.make, EnumsPage.make,
          DocGenerator._get_subdirectory, except_ok, hin, h1, h2,
          lang_rejected_of_init_ok c s _ _ hin]
    · have hin : SphinxPage._init_translation_info s = .error s := by
        simp [SphinxPage._init_translation_info, h1, h2]
      refine ⟨?_, ?_, ?_, ?_, ?_, ?_, ?_⟩ <;>
        simp [SphinxPage.make, IndexPage.make, EnumsPage.make,
          DocGenerator._get_subdirectory, except_ok, hin, h1, h2,
          lang_rejected_of_init_error c s s hin]

/-- Claim C10: under a supported language, a class page construction
raises the `AttributeError` exactly when the class has no `Namespace`
ancestor, and succeeds exactly when it has one — so with the unstated
precondition that every class has a `Namespace` ancestor the error
branch is unreachable, and without it the failure is an attribute error,
not the configuration `ValueError`. -/
theorem claim_C10 (c : AClass) (lang : String)
    (h : py_lower lang = "c" ∨ py_lower lang = "c++") :
    attr_error (ClassPage.make c lang)
      = (find_first_ancestor_namespace c.ancestors).isNone
    ∧ except_ok (ClassPage.make c lang)
      = (find_first_ancestor_namespace c.ancestors).isSome := by
  have hin : ∃ nt lt, SphinxPage._init_translation_info lang = .ok (nt, lt) := by
    rcases h with h | h
    · exact ⟨.cTranslator, .cLangTranslator, by simp [SphinxPage._init_translation_info, h]⟩
    · exact ⟨.cppTranslator, .cppLangTranslator,
        by simp [SphinxPage._init_translation_info, h]⟩
  obtain ⟨nt, lt, hin⟩ := hin
  rw [ClassPage.make_eq c lang nt lt hin]
  cases hf : find_first_ancestor_namespace c.ancestors <;>
    simp [attr_error, except_ok]

/-- Claim C10, witness: the sample class without a `Namespace` ancestor
makes the `C` class page constructor fail with the attribute error, not
a configuration error. -/
theorem claim_C10_witness :
    attr_error (ClassPage.make demo_class_no_ns "C")
      = (find_first_ancestor_namespace demo_class_no_ns.ancestors).isNone
    ∧ except_ok (ClassPage.make demo_class_no_ns "C")
      = (find_first_ancestor_namespace demo_class_no_ns.ancestors).isSome :=
  claim_C10 demo_class_no_ns "C" (Or.inl (by decide))
